import Mathlib

/-!
Verification of the YesFly restriction-geometry pipeline.

This file gives a shallow embedding of the backend restriction pipeline
(`src/backend/src/utils/spatial.ts`, the `RestrictionService` revision that
implements facility merging and clipping, and
`src/backend/src/services/faaProxyService.ts`) and proves properties about it.

Coordinates are modelled as rationals; the Turf.js geometry engine
(`turf.intersect`, `turf.difference`) is passed in as an explicit function
parameter of type `G → G → Except Unit (Option G)` where `.ok (some g)` is a
successful operation producing `g`, `.ok none` is the null result (disjoint
inputs for intersect, fully-covered minuend for difference) and `.error ()`
models a thrown exception.  `turf.combine`, which is purely structural, is
embedded directly.
-/

namespace YesFly

/-- A coordinate position, `[longitude, latitude]` in the source. -/
abbrev Position := ℚ × ℚ

/-- A linear ring: a list of positions. -/
abbrev LinearRing := List Position

/-- Polygon coordinates: outer ring followed by hole rings. -/
abbrev PolygonCoords := List LinearRing

/-- GeoJSON geometry, as used by `shared/types/RestrictionLayer.ts`
(`Point`, `LineString`, `Polygon`, `MultiPolygon`, `GeometryCollection`),
together with the `MultiPoint`/`MultiLineString` outputs `turf.combine`
can produce. -/
inductive Geometry where
  | point (c : Position)
  | multiPoint (cs : List Position)
  | lineString (cs : List Position)
  | multiLineString (cs : List LinearRing)
  | polygon (rings : PolygonCoords)
  | multiPolygon (polys : List PolygonCoords)
  | geometryCollection (gs : List Geometry)

/-- The check `f.geometry.type !== "GeometryCollection"` from
`mergeFAAFeaturesByFacility`. -/
def Geometry.isGeometryCollection : Geometry → Bool
  | .geometryCollection _ => true
  | _ => false

/-- String value of the enum member `RestrictionCategory.FAA`. -/
def RestrictionCategory.FAA : String := "FAA"

/-- String value of the enum member `RestrictionType.NO_FLY`. -/
def RestrictionType.NO_FLY : String := "NO_FLY"

/-- String value of the enum member `ConfidenceLevel.HIGH`. -/
def ConfidenceLevel.HIGH : String := "HIGH"

/-- The property bag of a restriction feature (`RestrictionLayer` in
`shared/types/RestrictionLayer.ts`): enum-valued fields are carried as their
string values, absent fields as `none`.  The interface is open
(`[key: string]: any`); the fields modelled here are the ones the backend
reads or writes.  The `geometry` property duplicates the feature geometry in
the source, hence the type parameter. -/
structure RestrictionLayer (G : Type) where
  id : Option String := none
  geometry : Option G := none
  category : Option String := none
  type : Option String := none
  authority : Option String := none
  description : Option String := none
  sourceUrl : Option String := none
  confidenceLevel : Option String := none
  jurisdictionCountry : Option String := none
  facility : Option String := none
  gridId : Option String := none
  name : Option String := none
  source : Option String := none
  notes : Option String := none
  maxAGL : Option ℚ := none
deriving DecidableEq

/-- A GeoJSON feature carrying restriction-layer properties
(`RestrictionFeature`). -/
structure Feature (G : Type) where
  properties : RestrictionLayer G
  geometry : G
deriving DecidableEq

/-- A GeoJSON feature collection (`RestrictionFeatureCollection`). -/
structure FeatureCollection (G : Type) where
  features : List (Feature G)
deriving DecidableEq

/-- The four-layer response of `RestrictionService.getRestrictions`
(`RestrictionsResponse` in `backend/src/types/index.ts`). -/
structure RestrictionsResponse (G : Type) where
  searchArea : FeatureCollection G
  airspaceRestrictions : FeatureCollection G
  localRestrictions : FeatureCollection G
  allowedAreas : FeatureCollection G
deriving DecidableEq

/-- Request input (`LocationInput` in `backend/src/types/index.ts`). -/
structure LocationInput where
  lat : ℚ
  lng : ℚ
  radius : ℚ
deriving DecidableEq

/-- `validateInput` from `backend/src/utils/spatial.ts`.  It checks latitude
against [-90, 90] and longitude against [-180, 180] and otherwise returns the
input unchanged; a thrown `Error` is modelled as `Except.error` carrying the
message.  Note that the radius field is never examined. -/
def validateInput (input : LocationInput) : Except String LocationInput :=
  if input.lat < -90 ∨ 90 < input.lat then
    .error "Invalid latitude. Must be between -90 and 90."
  else if input.lng < -180 ∨ 180 < input.lng then
    .error "Invalid longitude. Must be between -180 and 180."
  else
    .ok input

/-- JavaScript truthiness of an optional string: `undefined` and the empty
string are falsy. -/
def jsTruthy : Option String → Bool
  | none => false
  | some s => !(s == "")

/-- The JavaScript idiom `a || d` for an optional string `a` and a string
default `d`. -/
def jsStrOr (a : Option String) (d : String) : String :=
  match a with
  | some s => if s == "" then d else s
  | none => d

/-- The grouping key `f.properties.facility || f.properties.gridId ||
"unknown"` from `mergeFAAFeaturesByFacility`. -/
def facilityKey (f : Feature Geometry) : String :=
  jsStrOr f.properties.facility (jsStrOr f.properties.gridId "unknown")

/-- The distinct grouping keys in first-appearance order, mirroring the
insertion-order iteration of `Object.entries` over the `grouped` record. -/
def groupKeys (fs : List (Feature Geometry)) : List String :=
  fs.foldl (fun acc f => if facilityKey f ∈ acc then acc else acc ++ [facilityKey f]) []

/-- The group of features stored under key `k` in the `grouped` record. -/
def facilityGroup (fs : List (Feature Geometry)) (k : String) : List (Feature Geometry) :=
  fs.filter (fun f => facilityKey f == k)

/-- Point coordinates collected by `turf.combine` into a `MultiPoint`. -/
def combinePointCoords (fs : List (Feature Geometry)) : List Position :=
  (fs.map (fun f =>
    match f.geometry with
    | .point c => [c]
    | .multiPoint cs => cs
    | _ => [])).flatten

/-- Line coordinates collected by `turf.combine` into a `MultiLineString`. -/
def combineLineCoords (fs : List (Feature Geometry)) : List LinearRing :=
  (fs.map (fun f =>
    match f.geometry with
    | .lineString cs => [cs]
    | .multiLineString cs => cs
    | _ => [])).flatten

/-- Polygon coordinates collected by `turf.combine` into a `MultiPolygon`. -/
def combinePolygonCoords (fs : List (Feature Geometry)) : List PolygonCoords :=
  (fs.map (fun f =>
    match f.geometry with
    | .polygon rings => [rings]
    | .multiPolygon ps => ps
    | _ => [])).flatten

/-- `turf.combine`: groups the input features into at most one `MultiPoint`,
one `MultiLineString` and one `MultiPolygon` feature (in that order, only for
nonempty groups), concatenating coordinates; it performs no boolean union. -/
def combine (fs : List (Feature Geometry)) : List (Feature Geometry) :=
  (if combinePointCoords fs = [] then [] else
    [⟨{}, .multiPoint (combinePointCoords fs)⟩]) ++
  (if combineLineCoords fs = [] then [] else
    [⟨{}, .multiLineString (combineLineCoords fs)⟩]) ++
  (if combinePolygonCoords fs = [] then [] else
    [⟨{}, .multiPolygon (combinePolygonCoords fs)⟩])

/-- The merged property bag built (three times, identically) in
`mergeFAAFeaturesByFacility`: spread of the first group member, then
`facility` set to the group key and name/category/type/source/notes given
fallback defaults.  All other fields, `maxAGL` included, are whatever the
first member carried. -/
def mergedProps (facility : String) (first : RestrictionLayer Geometry) :
    RestrictionLayer Geometry :=
  { first with
    facility := some facility
    name := some (jsStrOr first.name "Unnamed Airspace")
    category := some (jsStrOr first.category "Airspace")
    type := some (jsStrOr first.type "No-Fly")
    source := some (jsStrOr first.source "FAA")
    notes := some (jsStrOr first.notes "") }

/-- One element of the `MultiPolygon` coordinates built in the
multi-feature branch of `mergeFAAFeaturesByFacility`: polygon rings are used
directly, nested `MultiPolygon` coordinates are flattened one level
(`geom.coordinates.flat()`), and any other geometry kind becomes the fixed
fallback ring. -/
def combinedPolyCoords (f : Feature Geometry) : PolygonCoords :=
  match f.geometry with
  | .polygon cs => cs
  | .multiPolygon cs => cs.flatten
  | _ => [[(0, 0), (0, 1), (1, 1), (1, 0), (0, 0)]]

/-- The body of the per-facility loop of `mergeFAAFeaturesByFacility`: the
list of features pushed onto `mergedFeatures` for one group.  Groups of size
at most one pass through unchanged; `GeometryCollection` members are
filtered out (dropping the facility when none remain, emitting a single
survivor directly); otherwise the group is combined via `turf.combine`, with
the original group re-emitted if combining produced nothing. -/
def mergeGroup (facility : String) : List (Feature Geometry) → List (Feature Geometry)
  | [] => []
  | g0 :: rest =>
    if rest.isEmpty then g0 :: rest
    else
      match (g0 :: rest).filter (fun f => !f.geometry.isGeometryCollection) with
      | [] => []
      | sf :: sfRest =>
        if sfRest.isEmpty then [⟨mergedProps facility g0.properties, sf.geometry⟩]
        else
          match combine (sf :: sfRest) with
          | [] => g0 :: rest
          | [cf] => [⟨mergedProps facility g0.properties, cf.geometry⟩]
          | cfs => [⟨mergedProps facility g0.properties,
              .multiPolygon (cfs.map combinedPolyCoords)⟩]

/-- `RestrictionService.mergeFAAFeaturesByFacility`: group by facility key
and merge each group. -/
def mergeFAAFeaturesByFacility (features : List (Feature Geometry)) :
    FeatureCollection Geometry :=
  ⟨((groupKeys features).map
      (fun k => mergeGroup k (facilityGroup features k))).flatten⟩

/-- The properties given to the allowed-area result feature in
`calculateAllowedAreas` (identical in both branches apart from the
description text). -/
def allowedAreaProps {G : Type} (g : G) (description : String) :
    RestrictionLayer G :=
  { id := some "allowed-area"
    geometry := some g
    category := some RestrictionCategory.FAA
    type := some RestrictionType.NO_FLY
    authority := some "System"
    description := some description
    sourceUrl := some ""
    confidenceLevel := some ConfidenceLevel.HIGH
    jurisdictionCountry := some "US" }

/-- The subtraction loop of `calculateAllowedAreas`: fold the current
allowed geometry through `turf.difference` against every restriction.
`some` is the surviving geometry; `none` is the early `return` taken when
`turf.difference` yields the null fully-covered sentinel.  A thrown
difference (`.error`) is caught per-iteration and the restriction skipped. -/
def allowedFold {G : Type} (diff : G → G → Except Unit (Option G)) :
    G → List (Feature G) → Option G
  | current, [] => some current
  | current, r :: rs =>
    match diff current r.geometry with
    | .ok (some g) => allowedFold diff g rs
    | .ok none => none
    | .error _ => allowedFold diff current rs

/-- `RestrictionService.calculateAllowedAreas` (the revision that merges and
clips): with no restrictions the single search-area feature is returned
verbatim, wrapped with the system metadata; otherwise the search geometry is
folded through `turf.difference` and the result wrapped, the fully-covered
sentinel yielding an empty collection.  The source indexes
`searchArea.features[0]`; an empty search collection, which would throw a
`TypeError` in the source, is mapped to the empty collection here and is
never reached from `generateSearchArea` output. -/
def calculateAllowedAreas {G : Type} (diff : G → G → Except Unit (Option G))
    (searchArea : FeatureCollection G) (restrictions : List (Feature G)) :
    FeatureCollection G :=
  match searchArea.features with
  | [] => ⟨[]⟩
  | sf :: _ =>
    if restrictions.isEmpty then
      ⟨[⟨allowedAreaProps sf.geometry
          "Entire search area is allowed (no restrictions)", sf.geometry⟩]⟩
    else
      match allowedFold diff sf.geometry restrictions with
      | some g =>
        ⟨[⟨allowedAreaProps g
            "Allowed flight area after applying all restrictions", g⟩]⟩
      | none => ⟨[]⟩

/-- The clipping annotation appended to the `notes` property:
the template literal
`"NOTES SP PIPE-IF-NOTES Clipped to search area".trim()` from
`clipRestrictionsToSearchArea`. -/
def clippedNotes (notes : Option String) : String :=
  (jsStrOr notes "" ++ " " ++ (if jsTruthy notes then "| " else "") ++
    "Clipped to search area").trim

/-- A clipped restriction feature: original properties with the clipping
note appended, geometry replaced by the intersection. -/
def clipFeature {G : Type} (r : Feature G) (g : G) : Feature G :=
  ⟨{ r.properties with notes := some (clippedNotes r.properties.notes) }, g⟩

/-- The per-restriction loop of `clipRestrictionsToSearchArea`: a found
intersection is emitted clipped, a null intersection drops the restriction,
and a thrown intersection is caught and the original restriction emitted
unchanged as a fallback. -/
def clipList {G : Type} (intersect : G → G → Except Unit (Option G)) (sg : G) :
    List (Feature G) → List (Feature G)
  | [] => []
  | r :: rs =>
    match intersect sg r.geometry with
    | .ok (some g) => clipFeature r g :: clipList intersect sg rs
    | .ok none => clipList intersect sg rs
    | .error _ => r :: clipList intersect sg rs

/-- `RestrictionService.clipRestrictionsToSearchArea`: empty restriction
collections pass through; otherwise each restriction is intersected with
`searchArea.features[0].geometry`.  As in `calculateAllowedAreas`, the
unreachable empty search collection is mapped to the empty collection. -/
def clipRestrictionsToSearchArea {G : Type}
    (intersect : G → G → Except Unit (Option G))
    (restrictions searchArea : FeatureCollection G) : FeatureCollection G :=
  if restrictions.features.isEmpty then restrictions
  else
    match searchArea.features with
    | [] => ⟨[]⟩
    | sf :: _ => ⟨clipList intersect sf.geometry restrictions.features⟩

/-- `RestrictionService.generateAirspaceRestrictions`: fetch FAA data, merge
grids by facility and clip to the search area; any failure (modelled as a
failed fetch) is caught and yields the empty collection. -/
def generateAirspaceRestrictions
    (intersect : Geometry → Geometry → Except Unit (Option Geometry))
    (fetched : Except Unit (FeatureCollection Geometry))
    (searchArea : FeatureCollection Geometry) : FeatureCollection Geometry :=
  match fetched with
  | .error _ => ⟨[]⟩
  | .ok raw =>
    clipRestrictionsToSearchArea intersect
      (mergeFAAFeaturesByFacility raw.features) searchArea

/-- `RestrictionService.getRestrictions`: validate, build the search area
(`generateSearchArea`, passed in as an oracle since it wraps `turf.buffer`),
generate the airspace layer, compute allowed areas, and assemble the
response with a hard-coded empty `localRestrictions` layer. -/
def getRestrictions
    (generateSearchArea : ℚ → ℚ → ℚ → FeatureCollection Geometry)
    (intersect diff : Geometry → Geometry → Except Unit (Option Geometry))
    (fetched : Except Unit (FeatureCollection Geometry))
    (input : LocationInput) : Except String (RestrictionsResponse Geometry) :=
  match validateInput input with
  | .error e => .error e
  | .ok v =>
    let searchArea := generateSearchArea v.lat v.lng v.radius
    let airspaceRestrictions :=
      generateAirspaceRestrictions intersect fetched
        (generateSearchArea v.lat v.lng v.radius)
    .ok
      { searchArea := searchArea
        airspaceRestrictions := airspaceRestrictions
        localRestrictions := ⟨[]⟩
        allowedAreas :=
          calculateAllowedAreas diff searchArea airspaceRestrictions.features }

/-- ESRI geometry as received from the FAA ArcGIS API: any of the fields may
be absent. -/
structure EsriGeometry where
  rings : Option PolygonCoords := none
  x : Option ℚ := none
  y : Option ℚ := none
  paths : Option (List LinearRing) := none
deriving DecidableEq

/-- `FAAProxyService.convertESRIToGeoJSON`: a null input and any input with
none of `rings`, both of `x`/`y`, or `paths` fall back to the `Point`
at the origin.  `paths[0]` on an empty `paths` array, which is `undefined`
in the source, is mapped to the empty line. -/
def convertESRIToGeoJSON : Option EsriGeometry → Geometry
  | none => .point (0, 0)
  | some g =>
    match g.rings with
    | some rs => .polygon rs
    | none =>
      match g.x, g.y with
      | some x, some y => .point (x, y)
      | _, _ =>
        match g.paths with
        | some ps => .lineString (ps.headD [])
        | none => .point (0, 0)

/-- Twice the signed area of a ring, by the shoelace formula over
consecutive vertex pairs. -/
def shoelaceSum : List Position → ℚ
  | [] => 0
  | [_] => 0
  | p :: q :: rest => (p.1 * q.2 - q.1 * p.2) + shoelaceSum (q :: rest)

/-- Unsigned area of one ring. -/
def ringArea (r : LinearRing) : ℚ := |shoelaceSum r| / 2

/-- Area of one polygon: outer ring minus holes. -/
def polygonArea : PolygonCoords → ℚ
  | [] => 0
  | outer :: holes => ringArea outer - (holes.map ringArea).sum

/-- Planar model of `turf.area`: polygon area for polygons, sum over the
parts for a `MultiPolygon` (the source computes spherical areas, but the
additivity over `MultiPolygon` parts is what matters here), zero for
non-areal geometries. -/
def geometryArea : Geometry → ℚ
  | .polygon rings => polygonArea rings
  | .multiPolygon ps => (ps.map polygonArea).sum
  | _ => 0

/-- The exact-set geometry model used to reason about the subtraction loop:
a geometry is a finite set of integer grid cells. -/
abbrev SetGeom := Finset (ℤ × ℤ)

/-- Exact set-semantics instance of `turf.difference`: never throws, and
returns the null fully-covered sentinel exactly when the difference is
empty. -/
def exactDifference (a b : SetGeom) : Except Unit (Option SetGeom) :=
  .ok (if a \ b = ∅ then none else some (a \ b))

/-- The union of the restriction geometries of a list of features, in the
exact-set model. -/
def unionList (rs : List (Feature SetGeom)) : SetGeom :=
  rs.foldr (fun r acc => r.geometry ∪ acc) ∅

/-- Total area of a feature collection in the exact-set model: number of
grid cells, summed over features. -/
def setArea (fc : FeatureCollection SetGeom) : ℚ :=
  ((fc.features.map (fun f => f.geometry.card)).sum : ℕ)

/-- Claim C1: the spec requires every radius ≤ 0 to be rejected with an
`InvalidRadius` validation error, but `validateInput` only checks latitude
and longitude: at the spec scenario center (37.7749, -122.4194) every
radius value — negative and zero included — passes validation unchanged, so
the restriction computation proceeds to the buffer instead of rejecting. -/
theorem validateInput_ignores_radius (r : ℚ) :
    validateInput ⟨37.7749, -122.4194, r⟩ = .ok ⟨37.7749, -122.4194, r⟩ := by
  unfold validateInput
  norm_num

/-- Claim C10: `convertESRIToGeoJSON` is total, and maps a null geometry, as
well as any geometry carrying none of `rings`, both of `x` and `y`, or
`paths`, to the GeoJSON `Point` at the origin instead of rejecting it. -/
theorem convertESRIToGeoJSON_origin_fallback (g : Option EsriGeometry)
    (h : g = none ∨ ∃ e, g = some e ∧ e.rings = none ∧
      (e.x = none ∨ e.y = none) ∧ e.paths = none) :
    convertESRIToGeoJSON g = .point (0, 0) := by
  rcases h with rfl | ⟨e, rfl, hr, hxy, hp⟩
  · rfl
  · obtain ⟨rs, ex, ey, ps⟩ := e
    simp only at hr hp
    subst hr hp
    rcases hxy with hx | hy
    · simp only at hx; subst hx; cases ey <;> rfl
    · simp only at hy; subst hy; cases ex <;> rfl

/-- Witness for C10 at a concrete unrecognized geometry (only `x` set). -/
theorem convertESRIToGeoJSON_origin_fallback_witness :
    convertESRIToGeoJSON (some ⟨none, some 3, none, none⟩) = .point (0, 0) :=
  convertESRIToGeoJSON_origin_fallback _ (.inr ⟨_, rfl, rfl, .inr rfl, rfl⟩)

/-- With a singleton search collection and no restrictions, the allowed-area
computation returns the wrapped search feature (shared helper). -/
theorem calculateAllowedAreas_nil {G : Type}
    (diff : G → G → Except Unit (Option G)) (sf : Feature G) :
    calculateAllowedAreas diff ⟨[sf]⟩ [] =
      ⟨[⟨allowedAreaProps sf.geometry
          "Entire search area is allowed (no restrictions)", sf.geometry⟩]⟩ := rfl

/-- Claim C3: with an empty restriction list, `calculateAllowedAreas`
returns a feature collection with exactly one feature whose geometry is
exactly the search-area geometry, wrapped with authority "System" and
confidence level HIGH. -/
theorem calculateAllowedAreas_no_restrictions {G : Type}
    (diff : G → G → Except Unit (Option G)) (searchArea : FeatureCollection G)
    (sf : Feature G) (h : searchArea.features = [sf]) :
    calculateAllowedAreas diff searchArea [] =
      ⟨[⟨allowedAreaProps sf.geometry
          "Entire search area is allowed (no restrictions)", sf.geometry⟩]⟩ ∧
    ((calculateAllowedAreas diff searchArea []).features.map
        (fun f => (f.geometry, f.properties.authority, f.properties.confidenceLevel))) =
      [(sf.geometry, some "System", some ConfidenceLevel.HIGH)] := by
  obtain ⟨fs⟩ := searchArea
  simp only at h
  subst h
  exact ⟨rfl, rfl⟩

/-- Witness for C3 in the exact-set geometry model. -/
theorem calculateAllowedAreas_no_restrictions_witness :
    calculateAllowedAreas exactDifference ⟨[⟨{}, ({(0, 0)} : SetGeom)⟩]⟩ [] =
      ⟨[⟨allowedAreaProps ({(0, 0)} : SetGeom)
          "Entire search area is allowed (no restrictions)", {(0, 0)}⟩]⟩ :=
  (calculateAllowedAreas_no_restrictions exactDifference _ _ rfl).1

/-- Claim C4: as soon as `turf.difference` returns the null fully-covered
sentinel for some restriction, `calculateAllowedAreas` returns the empty
feature collection, whatever restrictions follow. -/
theorem calculateAllowedAreas_short_circuit {G : Type}
    (diff : G → G → Except Unit (Option G)) (searchArea : FeatureCollection G)
    (sf : Feature G) (hs : searchArea.features = [sf]) (r : Feature G)
    (h : diff sf.geometry r.geometry = .ok none)
    (rest : List (Feature G)) :
    calculateAllowedAreas diff searchArea (r :: rest) = ⟨[]⟩ := by
  obtain ⟨fs⟩ := searchArea
  simp only at hs
  subst hs
  simp [calculateAllowedAreas, allowedFold, h]

/-- Witness for C4: one restriction wholly containing the search area (in
the exact-set model) yields zero allowed-area features. -/
theorem calculateAllowedAreas_short_circuit_witness :
    calculateAllowedAreas exactDifference ⟨[⟨{}, ({(0, 0)} : SetGeom)⟩]⟩
      [⟨{}, ({(0, 0), (1, 1)} : SetGeom)⟩] = ⟨[]⟩ :=
  calculateAllowedAreas_short_circuit exactDifference ⟨[⟨{}, {(0, 0)}⟩]⟩
    ⟨{}, {(0, 0)}⟩ rfl ⟨{}, {(0, 0), (1, 1)}⟩ (by rfl) []

/-- The clipping loop distributes over list append. -/
theorem clipList_append {G : Type} (intersect : G → G → Except Unit (Option G))
    (sg : G) (pre post : List (Feature G)) :
    clipList intersect sg (pre ++ post) =
      clipList intersect sg pre ++ clipList intersect sg post := by
  induction pre with
  | nil => rfl
  | cons r rs ih =>
    simp only [List.cons_append, clipList]
    cases intersect sg r.geometry with
    | error e => simp [ih]
    | ok o => cases o <;> simp [ih]

/-- Exact set-semantics instance of `turf.intersect`: never throws, and
returns the null sentinel exactly when the inputs are disjoint. -/
def exactIntersect (a b : SetGeom) : Except Unit (Option SetGeom) :=
  .ok (if a ∩ b = ∅ then none else some (a ∩ b))

/-- Claim C7: a restriction whose intersection with the search area is the
null (disjoint) result is excluded from the clipped output entirely; in
particular a single disjoint restriction clips to the empty collection, and
the allowed area computed from that empty clipped output is exactly the
search area. -/
theorem clip_excludes_disjoint {G : Type}
    (intersect diff : G → G → Except Unit (Option G))
    (searchArea : FeatureCollection G) (sf : Feature G)
    (hs : searchArea.features = [sf]) (r : Feature G)
    (h : intersect sf.geometry r.geometry = .ok none) :
    (∀ pre post, clipList intersect sf.geometry (pre ++ r :: post) =
        clipList intersect sf.geometry (pre ++ post)) ∧
    clipRestrictionsToSearchArea intersect ⟨[r]⟩ searchArea = ⟨[]⟩ ∧
    calculateAllowedAreas diff searchArea
        (clipRestrictionsToSearchArea intersect ⟨[r]⟩ searchArea).features =
      ⟨[⟨allowedAreaProps sf.geometry
          "Entire search area is allowed (no restrictions)", sf.geometry⟩]⟩ := by
  obtain ⟨fs⟩ := searchArea
  simp only at hs
  subst hs
  have hclip : clipRestrictionsToSearchArea intersect ⟨[r]⟩ ⟨[sf]⟩ =
      (⟨[]⟩ : FeatureCollection G) := by
    simp [clipRestrictionsToSearchArea, clipList, h]
  refine ⟨fun pre post => ?_, hclip, ?_⟩
  · simp only [clipList_append, clipList, h]
  · rw [hclip]
    exact calculateAllowedAreas_nil diff sf

/-- Witness for C7 in the exact-set model: a restriction disjoint from the
search cell is dropped and the allowed area is the search area verbatim. -/
theorem clip_excludes_disjoint_witness :
    clipRestrictionsToSearchArea exactIntersect ⟨[⟨{}, {(5, 5)}⟩]⟩
        ⟨[⟨{}, ({(0, 0)} : SetGeom)⟩]⟩ = ⟨[]⟩ ∧
    calculateAllowedAreas exactDifference ⟨[⟨{}, ({(0, 0)} : SetGeom)⟩]⟩
        (clipRestrictionsToSearchArea exactIntersect ⟨[⟨{}, {(5, 5)}⟩]⟩
          ⟨[⟨{}, ({(0, 0)} : SetGeom)⟩]⟩).features =
      ⟨[⟨allowedAreaProps ({(0, 0)} : SetGeom)
          "Entire search area is allowed (no restrictions)", {(0, 0)}⟩]⟩ :=
  ⟨(clip_excludes_disjoint exactIntersect exactDifference ⟨[⟨{}, {(0, 0)}⟩]⟩
      ⟨{}, {(0, 0)}⟩ rfl ⟨{}, {(5, 5)}⟩ (by rfl)).2.1,
   (clip_excludes_disjoint exactIntersect exactDifference ⟨[⟨{}, {(0, 0)}⟩]⟩
      ⟨{}, {(0, 0)}⟩ rfl ⟨{}, {(5, 5)}⟩ (by rfl)).2.2⟩

/-- Claim C8: when the intersection computation throws for a restriction,
the clipper includes that original restriction unchanged in the clipped
output (between the clippings of the surrounding restrictions) instead of
dropping it. -/
theorem clip_error_keeps_original {G : Type}
    (intersect : G → G → Except Unit (Option G))
    (searchArea : FeatureCollection G) (sf : Feature G)
    (hs : searchArea.features = [sf]) (r : Feature G)
    (h : intersect sf.geometry r.geometry = .error ())
    (pre post : List (Feature G)) :
    (clipRestrictionsToSearchArea intersect ⟨pre ++ r :: post⟩ searchArea).features =
      clipList intersect sf.geometry pre ++
        r :: clipList intersect sf.geometry post ∧
    r ∈ (clipRestrictionsToSearchArea intersect ⟨pre ++ r :: post⟩
        searchArea).features := by
  obtain ⟨fs⟩ := searchArea
  simp only at hs
  subst hs
  have hfeat : (clipRestrictionsToSearchArea intersect ⟨pre ++ r :: post⟩
      ⟨[sf]⟩).features =
      clipList intersect sf.geometry pre ++
        r :: clipList intersect sf.geometry post := by
    have hne : (pre ++ r :: post).isEmpty = false := by
      cases pre <;> rfl
    simp only [clipRestrictionsToSearchArea, hne, Bool.false_eq_true, if_false,
      clipList_append, clipList, h]
  exact ⟨hfeat, by rw [hfeat]; simp⟩

/-- An intersection oracle that always throws, for the C8 witness. -/
def throwingIntersect (_a _b : SetGeom) : Except Unit (Option SetGeom) := .error ()

/-- Witness for C8: with a throwing intersection engine, the original
restriction survives clipping unchanged. -/
theorem clip_error_keeps_original_witness :
    (clipRestrictionsToSearchArea throwingIntersect ⟨[⟨{}, {(2, 2)}⟩]⟩
        ⟨[⟨{}, ({(0, 0)} : SetGeom)⟩]⟩).features = [⟨{}, {(2, 2)}⟩] ∧
    (⟨{}, ({(2, 2)} : SetGeom)⟩ : Feature SetGeom) ∈
      (clipRestrictionsToSearchArea throwingIntersect ⟨[⟨{}, {(2, 2)}⟩]⟩
        ⟨[⟨{}, ({(0, 0)} : SetGeom)⟩]⟩).features :=
  clip_error_keeps_original throwingIntersect ⟨[⟨{}, {(0, 0)}⟩]⟩
    ⟨{}, {(0, 0)}⟩ rfl ⟨{}, {(2, 2)}⟩ rfl [] []

/-- Claim C9: whenever `getRestrictions` succeeds — whatever the location,
radius, geometry engine or fetched FAA data — the `localRestrictions` layer
of the response is the empty feature collection. -/
theorem getRestrictions_localRestrictions_always_empty
    (generateSearchArea : ℚ → ℚ → ℚ → FeatureCollection Geometry)
    (intersect diff : Geometry → Geometry → Except Unit (Option Geometry))
    (fetched : Except Unit (FeatureCollection Geometry))
    (input : LocationInput) (resp : RestrictionsResponse Geometry)
    (h : getRestrictions generateSearchArea intersect diff fetched input =
      .ok resp) :
    resp.localRestrictions = ⟨[]⟩ := by
  unfold getRestrictions at h
  cases hv : validateInput input with
  | error e => rw [hv] at h; cases h
  | ok v =>
    rw [hv] at h
    cases h
    rfl

/-- Search area used by the C9 witness. -/
def wSearchFC : FeatureCollection Geometry :=
  ⟨[⟨{}, .polygon [[(0, 0), (1, 0), (1, 1), (0, 0)]]⟩]⟩

/-- Geometry oracle used by the C9 witness: every operation returns the
null sentinel. -/
def wNullOp (_a _b : Geometry) : Except Unit (Option Geometry) := .ok none

/-- The response the C9 witness evaluates to. -/
def wResp : RestrictionsResponse Geometry :=
  { searchArea := wSearchFC
    airspaceRestrictions := ⟨[]⟩
    localRestrictions := ⟨[]⟩
    allowedAreas :=
      ⟨[⟨allowedAreaProps (Geometry.polygon [[(0, 0), (1, 0), (1, 1), (0, 0)]])
          "Entire search area is allowed (no restrictions)",
          .polygon [[(0, 0), (1, 0), (1, 1), (0, 0)]]⟩]⟩ }

/-- Witness for C9 at a concrete accepted input with a failed FAA fetch. -/
theorem getRestrictions_localRestrictions_always_empty_witness :
    getRestrictions (fun _ _ _ => wSearchFC) wNullOp wNullOp (.error ())
        ⟨0, 0, 1⟩ = .ok wResp ∧
    wResp.localRestrictions = ⟨[]⟩ :=
  ⟨rfl, getRestrictions_localRestrictions_always_empty
    (fun _ _ _ => wSearchFC) wNullOp wNullOp (.error ()) ⟨0, 0, 1⟩ wResp rfl⟩

/-- The merged property bag never changes the `maxAGL` field. -/
theorem mergedProps_maxAGL (facility : String) (p : RestrictionLayer Geometry) :
    (mergedProps facility p).maxAGL = p.maxAGL := rfl

/-- Claim C2 (amended): whenever a facility group of size at least two is
merged into a single record, that record carries the `maxAGL` of the FIRST
group member — the property bag is spread from `group[0]` and `maxAGL` is
never recomputed — not the maximum over the group. -/
theorem mergeGroup_maxAGL_first (facility : String) (g0 : Feature Geometry)
    (rest : List (Feature Geometry)) (f : Feature Geometry)
    (hrest : rest ≠ [])
    (h : mergeGroup facility (g0 :: rest) = [f]) :
    f.properties.maxAGL = g0.properties.maxAGL := by
  have hne : rest.isEmpty = false := by
    cases rest with
    | nil => exact absurd rfl hrest
    | cons a as => rfl
  rw [mergeGroup, hne] at h
  simp only [Bool.false_eq_true, if_false] at h
  split at h
  · cases h
  · split at h
    · cases h
      exact mergedProps_maxAGL facility g0.properties
    · split at h
      · injection h with h1 h2
        exact absurd h2 hrest
      · cases h
        exact mergedProps_maxAGL facility g0.properties
      · cases h
        exact mergedProps_maxAGL facility g0.properties

/-- First KXYZ restriction of the spec scenario: maxAGL 400. -/
def kxyzF1 : Feature Geometry :=
  ⟨{ facility := some "KXYZ", maxAGL := some 400 },
    .polygon [[(0, 0), (2, 0), (2, 2), (0, 2), (0, 0)]]⟩

/-- Second, overlapping KXYZ restriction of the spec scenario:
maxAGL 1000. -/
def kxyzF2 : Feature Geometry :=
  ⟨{ facility := some "KXYZ", maxAGL := some 1000 },
    .polygon [[(1, 1), (3, 1), (3, 3), (1, 3), (1, 1)]]⟩

/-- Counterexample to claim C2: merging the two overlapping KXYZ
restrictions with maxAGL 400 and 1000 yields a merged record whose maxAGL
is 400 (the first member), not the maximum 1000. -/
theorem merge_maxAGL_not_max_counterexample :
    ((mergeFAAFeaturesByFacility [kxyzF1, kxyzF2]).features.map
        (fun f => f.properties.maxAGL)) = [some 400] ∧
    ((mergeFAAFeaturesByFacility [kxyzF1, kxyzF2]).features.map
        (fun f => f.properties.maxAGL)) ≠ [some (max 400 1000)] := by
  constructor
  · rfl
  · intro hc
    have h4 : (some (400 : ℚ) : Option ℚ) = some (max 400 1000) := by
      have := hc
      rw [show ((mergeFAAFeaturesByFacility [kxyzF1, kxyzF2]).features.map
          (fun f => f.properties.maxAGL)) = [some 400] from rfl] at this
      exact List.head_eq_of_cons_eq this
    rw [Option.some_inj] at h4
    norm_num at h4

/-- Witness for the amended C2 at the KXYZ scenario: the group merges to a
single record and its maxAGL equals the first member, 400. -/
theorem mergeGroup_maxAGL_first_witness :
    mergeGroup "KXYZ" [kxyzF1, kxyzF2] =
      [⟨mergedProps "KXYZ" kxyzF1.properties,
        .multiPolygon [[[(0, 0), (2, 0), (2, 2), (0, 2), (0, 0)]],
          [[(1, 1), (3, 1), (3, 3), (1, 3), (1, 1)]]]⟩] ∧
    (⟨mergedProps "KXYZ" kxyzF1.properties,
        .multiPolygon [[[(0, 0), (2, 0), (2, 2), (0, 2), (0, 0)]],
          [[(1, 1), (3, 1), (3, 3), (1, 3), (1, 1)]]]⟩ :
        Feature Geometry).properties.maxAGL = kxyzF1.properties.maxAGL :=
  ⟨rfl, mergeGroup_maxAGL_first "KXYZ" kxyzF1 [kxyzF2] _
    (List.cons_ne_nil _ _) rfl⟩

/-- Folding the key-collection step over copies of one feature leaves an
accumulator already containing its key unchanged. -/
theorem groupKeys_fold_mem (f : Feature Geometry) (n : ℕ) (acc : List String)
    (hmem : facilityKey f ∈ acc) :
    (List.replicate n f).foldl
      (fun acc g => if facilityKey g ∈ acc then acc else acc ++ [facilityKey g])
      acc = acc := by
  induction n generalizing acc with
  | zero => rfl
  | succ m ih =>
    rw [List.replicate_succ, List.foldl_cons, if_pos hmem]
    exact ih acc hmem

/-- Copies of one feature produce a single grouping key. -/
theorem groupKeys_replicate (f : Feature Geometry) (n : ℕ) :
    groupKeys (List.replicate (n + 1) f) = [facilityKey f] := by
  rw [groupKeys, List.replicate_succ, List.foldl_cons]
  have h0 : (if facilityKey f ∈ ([] : List String) then ([] : List String)
      else [] ++ [facilityKey f]) = [facilityKey f] := by simp
  rw [h0]
  exact groupKeys_fold_mem f n [facilityKey f] (by simp)

/-- Filtering copies of an element the predicate accepts is the identity. -/
theorem filter_replicate_true {α : Type} (p : α → Bool) (a : α)
    (hp : p a = true) (n : ℕ) :
    (List.replicate n a).filter p = List.replicate n a := by
  induction n with
  | zero => rfl
  | succ m ih =>
    rw [List.replicate_succ, List.filter_cons]
    simp [hp, ih]

/-- Flattening copies of the empty list gives the empty list. -/
theorem flatten_replicate_nil {α : Type} (n : ℕ) :
    (List.replicate n ([] : List α)).flatten = [] := by
  induction n with
  | zero => rfl
  | succ m ih => rw [List.replicate_succ]; simp [ih]

/-- Flattening copies of a singleton gives the copies of its element. -/
theorem flatten_replicate_singleton {α : Type} (a : α) (n : ℕ) :
    (List.replicate n [a]).flatten = List.replicate n a := by
  induction n with
  | zero => rfl
  | succ m ih => rw [List.replicate_succ, List.replicate_succ]; simp [ih]

/-- `turf.combine` over copies of one polygon feature yields one
`MultiPolygon` feature holding all the copies — no union happens. -/
theorem combine_replicate_polygon (p : RestrictionLayer Geometry)
    (rings : PolygonCoords) (n : ℕ) :
    combine (List.replicate (n + 1) ⟨p, .polygon rings⟩) =
      [⟨{}, .multiPolygon (List.replicate (n + 1) rings)⟩] := by
  have hpt : combinePointCoords (List.replicate (n + 1) ⟨p, .polygon rings⟩) = [] := by
    rw [combinePointCoords, List.map_replicate]
    exact flatten_replicate_nil _
  have hln : combineLineCoords (List.replicate (n + 1) ⟨p, .polygon rings⟩) = [] := by
    rw [combineLineCoords, List.map_replicate]
    exact flatten_replicate_nil _
  have hpl : combinePolygonCoords (List.replicate (n + 1) ⟨p, .polygon rings⟩) =
      List.replicate (n + 1) rings := by
    rw [combinePolygonCoords, List.map_replicate]
    exact flatten_replicate_singleton rings (n + 1)
  rw [combine, hpt, hln, hpl]
  simp [List.replicate_succ]

/-- The per-facility merge of copies of one polygon feature: the group key
reduces the group to a single feature whose geometry is the `MultiPolygon`
of all the copies. -/
theorem mergeGroup_replicate (facility : String) (p : RestrictionLayer Geometry)
    (rings : PolygonCoords) (m : ℕ) :
    mergeGroup facility (List.replicate (m + 2) ⟨p, .polygon rings⟩) =
      [⟨mergedProps facility p, .multiPolygon (List.replicate (m + 2) rings)⟩] := by
  have hrep : List.replicate (m + 2) (⟨p, .polygon rings⟩ : Feature Geometry) =
      ⟨p, .polygon rings⟩ :: List.replicate (m + 1) ⟨p, .polygon rings⟩ :=
    List.replicate_succ ..
  have hne : (List.replicate (m + 1) (⟨p, .polygon rings⟩ : Feature Geometry)).isEmpty
      = false := by
    rw [List.replicate_succ]; rfl
  have hfil : ((⟨p, .polygon rings⟩ : Feature Geometry) ::
        List.replicate (m + 1) ⟨p, .polygon rings⟩).filter
        (fun f => !f.geometry.isGeometryCollection) =
      ⟨p, .polygon rings⟩ :: List.replicate (m + 1) ⟨p, .polygon rings⟩ := by
    rw [← hrep]
    exact filter_replicate_true _ _ rfl _
  have hcomb : combine ((⟨p, .polygon rings⟩ : Feature Geometry) ::
        List.replicate (m + 1) ⟨p, .polygon rings⟩) =
      [⟨{}, .multiPolygon (List.replicate (m + 2) rings)⟩] := by
    rw [← hrep]
    exact combine_replicate_polygon p rings (m + 1)
  rw [hrep, mergeGroup, hne]
  simp only [Bool.false_eq_true, if_false, hfil, hne, hcomb]

/-- Planar area of a `MultiPolygon` of copies: the per-polygon areas add
up. -/
theorem geometryArea_multiPolygon_replicate (rings : PolygonCoords) (n : ℕ) :
    geometryArea (.multiPolygon (List.replicate n rings)) = n * polygonArea rings := by
  simp [geometryArea, List.map_replicate, List.sum_replicate, nsmul_eq_mul]

/-- Claim C6 (amended): merging a facility group of N ≥ 2 identical copies
of one polygon does not yield the polygon back: the merged geometry is a
`MultiPolygon` containing all N copies, and its area is N times the area of
the polygon (not equal to it whenever the polygon has nonzero area). -/
theorem mergeFAA_replicate_not_idempotent (p : RestrictionLayer Geometry)
    (rings : PolygonCoords) (m : ℕ) :
    mergeFAAFeaturesByFacility
        (List.replicate (m + 2) ⟨p, .polygon rings⟩) =
      ⟨[⟨mergedProps (facilityKey ⟨p, .polygon rings⟩) p,
          .multiPolygon (List.replicate (m + 2) rings)⟩]⟩ ∧
    geometryArea (.multiPolygon (List.replicate (m + 2) rings)) =
      ((m : ℚ) + 2) * polygonArea rings := by
  constructor
  · rw [mergeFAAFeaturesByFacility, groupKeys_replicate _ (m + 1)]
    have hgrp : facilityGroup (List.replicate (m + 2) ⟨p, .polygon rings⟩)
        (facilityKey ⟨p, .polygon rings⟩) =
        List.replicate (m + 2) ⟨p, .polygon rings⟩ :=
      filter_replicate_true _ _ (by simp) _
    simp only [List.map_cons, List.map_nil, facilityGroup] at *
    rw [hgrp, mergeGroup_replicate]
    rfl
  · rw [geometryArea_multiPolygon_replicate]
    push_cast
    ring

/-- The unit square ring. -/
def unitSq : PolygonCoords := [[(0, 0), (1, 0), (1, 1), (0, 1), (0, 0)]]

/-- A restriction feature of facility "A" over the unit square. -/
def sqFeatA : Feature Geometry := ⟨{ facility := some "A" }, .polygon unitSq⟩

/-- Counterexample to claim C6: merging two identical copies of the unit
square for one facility yields a merged geometry of area 2, not the area 1
of the single polygon. -/
theorem merge_idempotence_counterexample :
    ((mergeFAAFeaturesByFacility [sqFeatA, sqFeatA]).features.map
        (fun f => geometryArea f.geometry)) = [2] ∧
    geometryArea sqFeatA.geometry = 1 ∧
    ((mergeFAAFeaturesByFacility [sqFeatA, sqFeatA]).features.map
        (fun f => geometryArea f.geometry)) ≠ [geometryArea sqFeatA.geometry] := by
  have hmerge : mergeFAAFeaturesByFacility [sqFeatA, sqFeatA] =
      ⟨[⟨mergedProps "A" sqFeatA.properties, .multiPolygon [unitSq, unitSq]⟩]⟩ := rfl
  have harea2 : geometryArea (.multiPolygon [unitSq, unitSq]) = 2 := by
    norm_num [geometryArea, polygonArea, ringArea, shoelaceSum, unitSq]
  have harea1 : geometryArea sqFeatA.geometry = 1 := by
    norm_num [geometryArea, polygonArea, ringArea, shoelaceSum, unitSq, sqFeatA]
  refine ⟨?_, harea1, ?_⟩
  · rw [hmerge]
    simp [harea2]
  · intro hc
    rw [hmerge] at hc
    simp only [List.map] at hc
    rw [harea2, harea1] at hc
    norm_num at hc

/-- Unfolding lemma for `unionList`. -/
theorem unionList_cons (r : Feature SetGeom) (rs : List (Feature SetGeom)) :
    unionList (r :: rs) = r.geometry ∪ unionList rs := rfl

/-- Membership in the union of the restriction geometries. -/
theorem mem_unionList (x : ℤ × ℤ) (rs : List (Feature SetGeom)) :
    x ∈ unionList rs ↔ ∃ r ∈ rs, x ∈ r.geometry := by
  induction rs with
  | nil => simp [unionList]
  | cons r rs ih => simp [unionList_cons, Finset.mem_union, ih]

/-- The union of the restriction geometries is invariant under permutation
of the restriction list. -/
theorem unionList_perm {rs rs' : List (Feature SetGeom)} (h : rs.Perm rs') :
    unionList rs = unionList rs' := by
  apply Finset.ext
  intro x
  rw [mem_unionList, mem_unionList]
  constructor
  · rintro ⟨r, hr, hx⟩
    exact ⟨r, h.mem_iff.mp hr, hx⟩
  · rintro ⟨r, hr, hx⟩
    exact ⟨r, h.mem_iff.mpr hr, hx⟩

/-- Set difference against a union is iterated set difference. -/
theorem sdiff_union_eq (S a b : SetGeom) : S \ (a ∪ b) = (S \ a) \ b := by
  ext x
  simp only [Finset.mem_sdiff, Finset.mem_union]
  tauto

/-- Normal form of the subtraction loop under the exact set-semantics
difference: the result is the search set minus the union of all
restrictions, with the fully-covered sentinel exactly when that difference
is empty. -/
theorem allowedFold_exact (rs : List (Feature SetGeom)) :
    ∀ S : SetGeom, S ≠ ∅ →
      allowedFold exactDifference S rs =
        if S \ unionList rs = ∅ then none else some (S \ unionList rs) := by
  induction rs with
  | nil =>
    intro S hS
    rw [show unionList [] = ∅ from rfl, Finset.sdiff_empty, if_neg hS]
    rfl
  | cons r rs ih =>
    intro S hS
    by_cases h1 : S \ r.geometry = ∅
    · have hdiff : exactDifference S r.geometry = .ok none := by
        rw [exactDifference, if_pos h1]
      have hcov : S \ unionList (r :: rs) = ∅ := by
        rw [unionList_cons, sdiff_union_eq, h1]
        exact Finset.empty_sdiff _
      rw [if_pos hcov]
      simp only [allowedFold, hdiff]
    · have hdiff : exactDifference S r.geometry = .ok (some (S \ r.geometry)) := by
        rw [exactDifference, if_neg h1]
      simp only [allowedFold, hdiff]
      rw [ih (S \ r.geometry) h1, unionList_cons, sdiff_union_eq]

/-- Claim C5: in the exact set-semantics model of the geometry engine
(where no difference operation throws), permuting the restriction list does
not change the allowed-area output of `calculateAllowedAreas` at all, so in
particular the areas differ by no more than the 1e-9 relative tolerance. -/
theorem calculateAllowedAreas_perm_invariant (fc : FeatureCollection SetGeom)
    (sf : Feature SetGeom) (hfc : fc.features = [sf]) (hS : sf.geometry ≠ ∅)
    (rs rs' : List (Feature SetGeom)) (hperm : rs.Perm rs') :
    calculateAllowedAreas exactDifference fc rs =
      calculateAllowedAreas exactDifference fc rs' ∧
    |setArea (calculateAllowedAreas exactDifference fc rs) -
        setArea (calculateAllowedAreas exactDifference fc rs')| ≤
      (1 / 1000000000) * setArea fc := by
  obtain ⟨fs⟩ := fc
  simp only at hfc
  subst hfc
  have hmain : calculateAllowedAreas exactDifference ⟨[sf]⟩ rs =
      calculateAllowedAreas exactDifference ⟨[sf]⟩ rs' := by
    rcases rs with _ | ⟨r, rest⟩
    · have hnil : rs' = [] := hperm.nil_eq.symm
      subst hnil
      rfl
    · rcases rs' with _ | ⟨r2, rest2⟩
      · exact absurd hperm.eq_nil (List.cons_ne_nil r rest)
      · simp only [calculateAllowedAreas, List.isEmpty_cons, Bool.false_eq_true,
          if_false]
        rw [allowedFold_exact (r :: rest) sf.geometry hS,
          allowedFold_exact (r2 :: rest2) sf.geometry hS,
          unionList_perm hperm]
  refine ⟨hmain, ?_⟩
  rw [hmain, sub_self, abs_zero]
  have hpos : (0 : ℚ) ≤ setArea ⟨[sf]⟩ := by
    rw [setArea]
    exact Nat.cast_nonneg _
  have hc : (0 : ℚ) ≤ 1 / 1000000000 := by norm_num
  exact mul_nonneg hc hpos

/-- Witness for C5: swapping two concrete restrictions leaves the allowed
area unchanged. -/
theorem calculateAllowedAreas_perm_invariant_witness :
    calculateAllowedAreas exactDifference ⟨[⟨{}, {(0, 0), (1, 0)}⟩]⟩
        [⟨{}, {(0, 0)}⟩, ⟨{}, {(9, 9)}⟩] =
      calculateAllowedAreas exactDifference ⟨[⟨{}, {(0, 0), (1, 0)}⟩]⟩
        [⟨{}, {(9, 9)}⟩, ⟨{}, {(0, 0)}⟩] :=
  (calculateAllowedAreas_perm_invariant ⟨[⟨{}, {(0, 0), (1, 0)}⟩]⟩
    ⟨{}, {(0, 0), (1, 0)}⟩ rfl (by decide)
    [⟨{}, {(0, 0)}⟩, ⟨{}, {(9, 9)}⟩] [⟨{}, {(9, 9)}⟩, ⟨{}, {(0, 0)}⟩]
    (List.Perm.swap _ _ _)).1

end YesFly
